import Mathlib

/-!
Verification of the SWARM-INTELLIGENCE-NETWORK consensus core.

This file is a shallow embedding, in Lean 4, of the parts of the repository
that the verified properties talk about:

* the mock cryptography of `libs/rust/core/src/crypto_bls.rs` and
  `libs/rust/core/src/crypto_vrf.rs` (both are built on SHA-256 / SHA-512,
  which are embedded below in full so that concrete runs evaluate inside
  the kernel);
* the validator manager of `services/consensus-core/src/validator_manager.rs`;
* the optimized PBFT engine of `services/consensus-core/src/optimized_pbft.rs`;
* the core-library PBFT engine of `libs/rust/core/src/consensus/pbft.rs`;
* the gRPC PBFT service of `services/consensus-core/src/lib.rs`;
* the circuit breaker of `libs/rust/core/src/resilience_advanced.rs`.

Machine integers (`u64`, `u8`, `u32`) are modelled as `Nat` with explicit
`% 2 ^ w` at the points where Rust wraps, and with truncated subtraction
standing in for `saturating_sub`.  Byte strings are `List Nat`.  Rust
`f64` fields that the properties mention (reputation scores, the circuit
breaker failure threshold) are modelled as `ℚ`; the only operations the
code performs on them at the verified points (halving, comparing a ratio
of small counts against a threshold) are exact in both representations.
Wall-clock reads (`Instant::now`, `Utc::now`) are modelled by passing the
current time explicitly.  `HashMap` / `HashSet` are modelled as
association lists / duplicate-free insertion lists, and the Bloom filter
of `AggregatedVotes` (used only as a fast pre-filter in front of the
authoritative `Vec::contains` check) is modelled as exact membership,
i.e. without false positives.
-/

/-! ## Bytes and word helpers -/

set_option maxRecDepth 100000
set_option maxHeartbeats 4000000
set_option linter.unnecessarySeqFocus false

abbrev Bytes := List Nat

/-- Truncate to a 32-bit word. -/
def u32 (x : Nat) : Nat := x % 4294967296

/-- Truncate to a 64-bit word. -/
def u64 (x : Nat) : Nat := x % 18446744073709551616

/-- Big-endian byte encoding of `n` on `k` bytes. -/
def beBytes (k n : Nat) : Bytes :=
  (List.range k).map (fun i => (n >>> (8 * (k - 1 - i))) % 256)

/-- Little-endian 8-byte encoding of `n`, as produced by `u64::to_le_bytes`. -/
def le8 (n : Nat) : Bytes :=
  (List.range 8).map (fun i => (n >>> (8 * i)) % 256)

/-- `u64::from_le_bytes` on (the first 8 bytes of) a byte list. -/
def leU64 (bs : Bytes) : Nat :=
  (bs.take 8).foldr (fun b acc => b + 256 * acc) 0

/-- Pointwise XOR of two byte lists (the Rust code only ever applies it to
lists of equal fixed width). -/
def xorBytes (a b : Bytes) : Bytes := List.zipWith (fun x y => x ^^^ y) a b

/-! ## SHA-256 (FIPS 180-4), used by `crypto_bls.rs` via the `sha2` crate -/

def sha256K : List Nat := [
  1116352408, 1899447441, 3049323471, 3921009573, 961987163, 1508970993,
  2453635748, 2870763221, 3624381080, 310598401, 607225278, 1426881987,
  1925078388, 2162078206, 2614888103, 3248222580, 3835390401, 4022224774,
  264347078, 604807628, 770255983, 1249150122, 1555081692, 1996064986,
  2554220882, 2821834349, 2952996808, 3210313671, 3336571891, 3584528711,
  113926993, 338241895, 666307205, 773529912, 1294757372, 1396182291,
  1695183700, 1986661051, 2177026350, 2456956037, 2730485921, 2820302411,
  3259730800, 3345764771, 3516065817, 3600352804, 4094571909, 275423344,
  430227734, 506948616, 659060556, 883997877, 958139571, 1322822218,
  1537002063, 1747873779, 1955562222, 2024104815, 2227730452, 2361852424,
  2428436474, 2756734187, 3204031479, 3329325298]

/-- Rotate a 32-bit word right by `n`. -/
def rotr32 (n x : Nat) : Nat := u32 ((x >>> n) ||| (x <<< (32 - n)))

def ch32 (x y z : Nat) : Nat := (x &&& y) ^^^ ((x ^^^ 4294967295) &&& z)

def maj32 (x y z : Nat) : Nat := (x &&& y) ^^^ (x &&& z) ^^^ (y &&& z)

def bsig0 (x : Nat) : Nat := rotr32 2 x ^^^ rotr32 13 x ^^^ rotr32 22 x

def bsig1 (x : Nat) : Nat := rotr32 6 x ^^^ rotr32 11 x ^^^ rotr32 25 x

def ssig0 (x : Nat) : Nat := rotr32 7 x ^^^ rotr32 18 x ^^^ (x >>> 3)

def ssig1 (x : Nat) : Nat := rotr32 17 x ^^^ rotr32 19 x ^^^ (x >>> 10)

/-- SHA-256 / SHA-512 padding: `0x80`, zeros, then the bit length on
`lenBytes` bytes, to a multiple of `block` bytes. -/
def shaPad (block lenBytes : Nat) (m : Bytes) : Bytes :=
  let L := m.length
  let zeros := (block + (block - lenBytes) - (L + 1) % block) % block
  m ++ 128 :: List.replicate zeros 0 ++ beBytes lenBytes (8 * L)

/-- Split a padded message into `block`-byte blocks of big-endian
`wordBytes`-byte words. -/
def shaBlocks (block wordBytes : Nat) (padded : Bytes) : List (List Nat) :=
  (List.range (padded.length / block)).map (fun i =>
    (List.range (block / wordBytes)).map (fun j =>
      ((padded.drop (block * i + wordBytes * j)).take wordBytes).foldl
        (fun a b => a * 256 + b) 0))

/-- Message schedule: extend the 16 block words to `16 + rounds` words. -/
def shaSchedule (trunc s0 s1 : Nat → Nat) (rounds : Nat) (ws : List Nat) :
    List Nat :=
  (List.range rounds).foldl (fun acc _ =>
    let n := acc.length
    acc ++ [trunc (s1 (acc.getD (n - 2) 0) + acc.getD (n - 7) 0 +
      s0 (acc.getD (n - 15) 0) + acc.getD (n - 16) 0)]) ws

/-- The eight working variables of the SHA-2 compression loop. -/
structure Sha2State where
  a : Nat
  b : Nat
  c : Nat
  d : Nat
  e : Nat
  f : Nat
  g : Nat
  h : Nat
  deriving Repr, DecidableEq

def sha256Round (st : Sha2State) (kw : Nat × Nat) : Sha2State :=
  let t1 := u32 (st.h + bsig1 st.e + ch32 st.e st.f st.g + kw.1 + kw.2)
  let t2 := u32 (bsig0 st.a + maj32 st.a st.b st.c)
  ⟨u32 (t1 + t2), st.a, st.b, st.c, u32 (st.d + t1), st.e, st.f, st.g⟩

def sha2Add (trunc : Nat → Nat) (x y : Sha2State) : Sha2State :=
  ⟨trunc (x.a + y.a), trunc (x.b + y.b), trunc (x.c + y.c), trunc (x.d + y.d),
   trunc (x.e + y.e), trunc (x.f + y.f), trunc (x.g + y.g), trunc (x.h + y.h)⟩

def sha256Compress (st : Sha2State) (blockWords : List Nat) : Sha2State :=
  let w := shaSchedule u32 ssig0 ssig1 48 blockWords
  sha2Add u32 st ((sha256K.zip w).foldl sha256Round st)

def sha256Init : Sha2State :=
  ⟨1779033703, 3144134277, 1013904242, 2773480762,
   1359893119, 2600822924, 528734635, 1541459225⟩

def sha2Out (wordBytes : Nat) (st : Sha2State) : Bytes :=
  beBytes wordBytes st.a ++ beBytes wordBytes st.b ++ beBytes wordBytes st.c ++
  beBytes wordBytes st.d ++ beBytes wordBytes st.e ++ beBytes wordBytes st.f ++
  beBytes wordBytes st.g ++ beBytes wordBytes st.h

/-- SHA-256 digest (32 bytes) of a byte list. -/
def sha256 (m : Bytes) : Bytes :=
  sha2Out 4 ((shaBlocks 64 4 (shaPad 64 8 m)).foldl sha256Compress sha256Init)

/-! ## SHA-512 (FIPS 180-4), used by `crypto_vrf.rs` via the `sha2` crate -/

def sha512K : List Nat := [
  4794697086780616226, 8158064640168781261, 13096744586834688815,
  16840607885511220156, 4131703408338449720, 6480981068601479193,
  10538285296894168987, 12329834152419229976, 15566598209576043074,
  1334009975649890238, 2608012711638119052, 6128411473006802146,
  8268148722764581231, 9286055187155687089, 11230858885718282805,
  13951009754708518548, 16472876342353939154, 17275323862435702243,
  1135362057144423861, 2597628984639134821, 3308224258029322869,
  5365058923640841347, 6679025012923562964, 8573033837759648693,
  10970295158949994411, 12119686244451234320, 12683024718118986047,
  13788192230050041572, 14330467153632333762, 15395433587784984357,
  489312712824947311, 1452737877330783856, 2861767655752347644,
  3322285676063803686, 5560940570517711597, 5996557281743188959,
  7280758554555802590, 8532644243296465576, 9350256976987008742,
  10552545826968843579, 11727347734174303076, 12113106623233404929,
  14000437183269869457, 14369950271660146224, 15101387698204529176,
  15463397548674623760, 17586052441742319658, 1182934255886127544,
  1847814050463011016, 2177327727835720531, 2830643537854262169,
  3796741975233480872, 4115178125766777443, 5681478168544905931,
  6601373596472566643, 7507060721942968483, 8399075790359081724,
  8693463985226723168, 9568029438360202098, 10144078919501101548,
  10430055236837252648, 11840083180663258601, 13761210420658862357,
  14299343276471374635, 14566680578165727644, 15097957966210449927,
  16922976911328602910, 17689382322260857208, 500013540394364858,
  748580250866718886, 1242879168328830382, 1977374033974150939,
  2944078676154940804, 3659926193048069267, 4368137639120453308,
  4836135668995329356, 5532061633213252278, 6448918945643986474,
  6902733635092675308, 7801388544844847127]

/-- Rotate a 64-bit word right by `n`. -/
def rotr64 (n x : Nat) : Nat := u64 ((x >>> n) ||| (x <<< (64 - n)))

def ch64 (x y z : Nat) : Nat :=
  (x &&& y) ^^^ ((x ^^^ 18446744073709551615) &&& z)

def maj64 (x y z : Nat) : Nat := (x &&& y) ^^^ (x &&& z) ^^^ (y &&& z)

def bsig0w (x : Nat) : Nat := rotr64 28 x ^^^ rotr64 34 x ^^^ rotr64 39 x

def bsig1w (x : Nat) : Nat := rotr64 14 x ^^^ rotr64 18 x ^^^ rotr64 41 x

def ssig0w (x : Nat) : Nat := rotr64 1 x ^^^ rotr64 8 x ^^^ (x >>> 7)

def ssig1w (x : Nat) : Nat := rotr64 19 x ^^^ rotr64 61 x ^^^ (x >>> 6)

def sha512Round (st : Sha2State) (kw : Nat × Nat) : Sha2State :=
  let t1 := u64 (st.h + bsig1w st.e + ch64 st.e st.f st.g + kw.1 + kw.2)
  let t2 := u64 (bsig0w st.a + maj64 st.a st.b st.c)
  ⟨u64 (t1 + t2), st.a, st.b, st.c, u64 (st.d + t1), st.e, st.f, st.g⟩

def sha512Compress (st : Sha2State) (blockWords : List Nat) : Sha2State :=
  let w := shaSchedule u64 ssig0w ssig1w 64 blockWords
  sha2Add u64 st ((sha512K.zip w).foldl sha512Round st)

def sha512Init : Sha2State :=
  ⟨7640891576956012808, 13503953896175478587, 4354685564936845355,
   11912009170470909681, 5840696475078001361, 11170449401992604703,
   2270897969802886507, 6620516959819538809⟩

/-- SHA-512 digest (64 bytes) of a byte list. -/
def sha512 (m : Bytes) : Bytes :=
  sha2Out 8 ((shaBlocks 128 8 (shaPad 128 16 m)).foldl sha512Compress sha512Init)


/-- ASCII bytes of `"pubkey"`. -/
def bytesPubkey : Bytes := [112, 117, 98, 107, 101, 121]

/-- ASCII bytes of `"sig_part2"`. -/
def bytesSigPart2 : Bytes := [115, 105, 103, 95, 112, 97, 114, 116, 50]

/-- ASCII bytes of `"sig_part3"`. -/
def bytesSigPart3 : Bytes := [115, 105, 103, 95, 112, 97, 114, 116, 51]

/-- `generate_keypair`: `sk = SHA256(seed)`,
`pk = SHA256(sk ∥ "pubkey") ∥ 0^16`. -/
def generate_keypair (seed : Bytes) : Bytes × Bytes :=
  let sk := sha256 seed
  let pk := sha256 (sk ++ bytesPubkey) ++ List.replicate 16 0
  (sk, pk)

/-- `sign`: three chained SHA-256 digests stretched to 96 bytes. -/
def sign (sk message : Bytes) : Bytes :=
  let h1 := sha256 (sk ++ message)
  let h2 := sha256 (h1 ++ bytesSigPart2)
  let h3 := sha256 (h2 ++ bytesSigPart3)
  h1 ++ h2 ++ h3

/-- `recover_sk_from_pk` (mock-only helper): re-derive a keypair from the
first 32 bytes of the public key. -/
def recover_sk_from_pk (pk : Bytes) : Bytes × Bytes :=
  generate_keypair (pk.take 32)

/-- `verify`: recompute the signature from the recovered key and compare;
reject if the recovered public key differs from the given one. -/
def verify (pk message signature : Bytes) : Bool :=
  let rec_pair := recover_sk_from_pk pk
  (rec_pair.2 == pk) && (sign rec_pair.1 message == signature)

/-- XOR `v` into the first byte of a byte list (`agg[0] ^= v`). -/
def xorHead (v : Nat) : Bytes → Bytes
  | [] => []
  | b :: rest => (b ^^^ v) :: rest

/-- `aggregate_signatures`: bytewise XOR of all 96-byte signatures, with the
item count (as `u8`) XOR-ed into byte 0. -/
def aggregate_signatures (sigs : List Bytes) : Bytes :=
  if sigs.isEmpty then List.replicate 96 0
  else xorHead (sigs.length % 256) (sigs.foldl xorBytes (List.replicate 96 0))

/-- `aggregate_pubkeys`: bytewise XOR of all 48-byte public keys, with the
item count (as `u8`) XOR-ed into byte 0. -/
def aggregate_pubkeys (pks : List Bytes) : Bytes :=
  if pks.isEmpty then List.replicate 48 0
  else xorHead (pks.length % 256) (pks.foldl xorBytes (List.replicate 48 0))


/-! ## Mock BLS signatures — `libs/rust/core/src/crypto_bls.rs`

Keys, signatures and messages are byte lists (`BlsSecretKey` 32 bytes,
`BlsPublicKey` 48 bytes, `BlsSignature` 96 bytes).  ASCII domain-separation
constants from the source are spelled out as byte lists. -/

/-! ## Mock VRF — `libs/rust/core/src/crypto_vrf.rs` -/

/-- ASCII bytes of `"vrf-sk"`. -/
def bytesVrfSk : Bytes := [118, 114, 102, 45, 115, 107]

/-- ASCII bytes of `"vrf-pk"`. -/
def bytesVrfPk : Bytes := [118, 114, 102, 45, 112, 107]

/-- ASCII bytes of `"h2c"`. -/
def bytesH2c : Bytes := [104, 50, 99]

/-- ASCII bytes of `"nonce"`. -/
def bytesNonce : Bytes := [110, 111, 110, 99, 101]

/-- ASCII bytes of `"challenge"`. -/
def bytesChallenge : Bytes := [99, 104, 97, 108, 108, 101, 110, 103, 101]

/-- ASCII bytes of `"vrf-output"`. -/
def bytesVrfOutput : Bytes := [118, 114, 102, 45, 111, 117, 116, 112, 117, 116]

/-- `generate_vrf_keypair`: `sk = SHA512(seed ∥ "vrf-sk")[..32]`,
`pk = SHA512(sk ∥ "vrf-pk")[..32]`. -/
def generate_vrf_keypair (seed : Bytes) : Bytes × Bytes :=
  let sk := (sha512 (seed ++ bytesVrfSk)).take 32
  let pk := (sha512 (sk ++ bytesVrfPk)).take 32
  (sk, pk)

/-- `vrf_prove`: mock ECVRF.  Returns `(proof, output)` where the 80-byte
proof is `gamma[..32] ∥ c[..16] ∥ s[..32]` and the 64-byte output is
`SHA512("vrf-output" ∥ gamma)` over the full 64-byte `gamma` digest. -/
def vrf_prove (sk alpha : Bytes) : Bytes × Bytes :=
  let h_point := sha512 (bytesH2c ++ alpha)
  let gamma := sha512 (sk ++ h_point)
  let k := sha512 (sk ++ alpha ++ bytesNonce)
  let c := sha512 (bytesChallenge ++ gamma ++ k ++ alpha)
  let s := sha512 (k ++ c ++ sk)
  let proof := gamma.take 32 ++ c.take 16 ++ s.take 32
  let output := sha512 (bytesVrfOutput ++ gamma)
  (proof, output)

/-- `vrf_verify`: recompute the 16-byte challenge from the proof components
and the public key; `some output` iff it matches bytes 32..48 of the proof.
Note that the recomputation hashes the 32-byte `gamma` slice of the proof
and a `check` digest, where `vrf_prove` hashed the 64-byte `gamma` digest
and the nonce `k`. -/
def vrf_verify (pk alpha proof : Bytes) : Option Bytes :=
  let gamma := proof.take 32
  let c := (proof.drop 32).take 16
  let s := proof.drop 48
  let h_point := sha512 (bytesH2c ++ alpha)
  let check := sha512 (s ++ c ++ pk ++ h_point)
  let expected_c := sha512 (bytesChallenge ++ gamma ++ check ++ alpha)
  if expected_c.take 16 == c then some (sha512 (bytesVrfOutput ++ gamma))
  else none

/-- Total stake of a weighted validator list. -/
def sumStakes (validators : List (String × Nat)) : Nat :=
  (validators.map Prod.snd).sum

/-- The `for` loop of `select_validator_with_vrf`: walk the list keeping the
cumulative stake, returning the first validator whose cumulative interval
contains `target`. -/
def fts_scan (target : Nat) : Nat → List (String × Nat) → Option String
  | _, [] => none
  | cumulative, (validator_id, stake) :: rest =>
      if target < cumulative + stake then some validator_id
      else fts_scan target (cumulative + stake) rest

/-- `select_validator_with_vrf` (Follow-the-Satoshi): map the first 8 bytes
of the VRF output to `target ∈ [0, total_stake)` and pick the validator
whose cumulative-stake range contains it; `none` on an empty list or zero
total stake; fallback to the last validator after the loop. -/
def select_validator_with_vrf (vrf_output : Bytes)
    (validators : List (String × Nat)) : Option String :=
  if validators.isEmpty then none
  else
    let total_stake := sumStakes validators
    if total_stake = 0 then none
    else
      let random_value := leU64 vrf_output
      let target := random_value % total_stake
      match fts_scan target 0 validators with
      | some validator_id => some validator_id
      | none => validators.getLast?.map Prod.fst

/-- `SlashReason` of `crypto_vrf.rs`. -/
inductive SlashReason where
  | DoubleSign
  | Unavailability
  | InvalidProposal
  | ByzantineBehavior
  deriving Repr, DecidableEq

/-- `SlashingRecord` of `crypto_vrf.rs` (timestamp passed in explicitly). -/
structure SlashingRecord where
  validator : String
  slash_height : Nat
  slash_reason : SlashReason
  slashed_amount : Nat
  timestamp : Int
  deriving Repr, DecidableEq

/-- `SlashingConfig` of `crypto_vrf.rs`; penalties are basis points. -/
structure SlashingConfig where
  double_sign_penalty : Nat
  unavailability_penalty : Nat
  invalid_proposal_penalty : Nat
  byzantine_penalty : Nat
  jail_duration_blocks : Nat
  deriving Repr, DecidableEq

/-- `SlashingConfig::default()`. -/
def SlashingConfig.default : SlashingConfig :=
  ⟨1000, 100, 500, 5000, 1000⟩

/-- The basis-point penalty selected by `calculate_slash_amount`'s `match`. -/
def penaltyBp (reason : SlashReason) (config : SlashingConfig) : Nat :=
  match reason with
  | .DoubleSign => config.double_sign_penalty
  | .Unavailability => config.unavailability_penalty
  | .InvalidProposal => config.invalid_proposal_penalty
  | .ByzantineBehavior => config.byzantine_penalty

/-- `calculate_slash_amount`: `min(stake * penalty / 10000, stake)` in `u64`
arithmetic (the product wraps at `2^64`). -/
def calculate_slash_amount (current_stake : Nat) (reason : SlashReason)
    (config : SlashingConfig) : Nat :=
  min (u64 (current_stake * penaltyBp reason config) / 10000) current_stake

/-! ## Association-list and set helpers

`HashMap` / `BTreeMap` are modelled as association lists with unique keys
(updates rewrite every binding of the key, which coincides with the map
semantics on unique-key lists); `HashSet` is modelled as a duplicate-free
insertion list. -/

/-- `HashMap::get`. -/
def alistFind {κ α : Type} [BEq κ] (k : κ) (l : List (κ × α)) : Option α :=
  (l.find? (fun p => p.1 == k)).map Prod.snd

/-- In-place mutation through `get_mut`: rewrite the value bound to `k`. -/
def alistUpdate {κ α : Type} [BEq κ] (k : κ) (v : α) (l : List (κ × α)) :
    List (κ × α) :=
  l.map (fun p => if p.1 == k then (k, v) else p)

/-- `HashMap::insert`: replace the binding if present, append otherwise. -/
def alistInsert {κ α : Type} [BEq κ] (k : κ) (v : α) (l : List (κ × α)) :
    List (κ × α) :=
  if (alistFind k l).isSome then alistUpdate k v l else l ++ [(k, v)]

/-- `entry(k).or_insert_with(d)`: return the map (extended if needed) and
the value now bound to `k`. -/
def alistGetOrInsert {κ α : Type} [BEq κ] (k : κ) (d : α)
    (l : List (κ × α)) : List (κ × α) × α :=
  match alistFind k l with
  | some v => (l, v)
  | none => (l ++ [(k, d)], d)

/-- `HashSet::insert`. -/
def setInsert (x : String) (l : List String) : List String :=
  if l.contains x then l else l ++ [x]

/-! ## Validator manager — `services/consensus-core/src/validator_manager.rs` -/

/-- `Validator` record; `commission_rate` and `reputation_score` are `f64`
in the source and modelled as `ℚ`. -/
structure Validator where
  node_id : String
  bls_pubkey : Bytes
  vrf_pubkey : Bytes
  stake : Nat
  delegated_stake : Nat
  commission_rate : ℚ
  jailed : Bool
  jail_until_height : Nat
  slashing_history : List SlashingRecord
  reputation_score : ℚ
  uptime_blocks : Nat
  total_blocks : Nat
  last_active_height : Nat
  created_at : Int
  updated_at : Int
  deriving Repr, DecidableEq

/-- `Validator::total_stake`: `stake.saturating_add(delegated_stake)`. -/
def Validator.total_stake (v : Validator) : Nat :=
  min (v.stake + v.delegated_stake) 18446744073709551615

/-- `Delegation` record. -/
structure Delegation where
  delegator : String
  validator : String
  amount : Nat
  delegated_at : Int
  deriving Repr, DecidableEq

/-- `ValidatorManager` state (locks and `Arc`s erased). -/
structure ValidatorManager where
  validators : List (String × Validator)
  active_set : List String
  stake_index : List (Nat × List String)
  delegations : List (String × List Delegation)
  min_stake : Nat
  max_validators : Nat
  epoch_length : Nat
  slashing_config : SlashingConfig
  vrf_sk : Bytes
  vrf_pk : Bytes
  current_height : Nat
  current_epoch : Nat
  deriving Repr, DecidableEq

/-- Remove `id` from the `key` bucket of the stake index, dropping the
bucket if it becomes empty. -/
def stakeIndexRemove (idx : List (Nat × List String)) (key : Nat)
    (id : String) : List (Nat × List String) :=
  (idx.map (fun p => if p.1 == key then (p.1, p.2.filter (fun x => x ≠ id)) else p)).filter
    (fun p => !(p.1 == key && p.2.isEmpty))

/-- Add `id` to the `key` bucket of the stake index
(`entry(key).or_insert_with(Vec::new).push(id)`). -/
def stakeIndexInsert (idx : List (Nat × List String)) (key : Nat)
    (id : String) : List (Nat × List String) :=
  if idx.any (fun p => p.1 == key) then
    idx.map (fun p => if p.1 == key then (p.1, p.2 ++ [id]) else p)
  else idx ++ [(key, [id])]

/-- `ValidatorManager::slash_validator`: compute the penalty from the total
effective stake, subtract it from self-stake (`saturating_sub`), jail until
`height + jail_duration_blocks`, append the slashing record, halve the
reputation, refresh the stake index, and return the slashed amount.
`none` models the `Err("not found")` branch; `now` is the wall clock. -/
def slash_validator (m : ValidatorManager) (node_id : String)
    (reason : SlashReason) (height : Nat) (now : Int) :
    Option (ValidatorManager × Nat) :=
  match alistFind node_id m.validators with
  | none => none
  | some v =>
      let slash_amount := calculate_slash_amount v.total_stake reason
        m.slashing_config
      let old_stake := v.total_stake
      let record : SlashingRecord :=
        ⟨node_id, height, reason, slash_amount, now⟩
      let v' := { v with
        stake := v.stake - slash_amount,
        jailed := true,
        jail_until_height := height + m.slashing_config.jail_duration_blocks,
        slashing_history := v.slashing_history ++ [record],
        updated_at := now,
        reputation_score := v.reputation_score * (1 / 2) }
      let idx1 := stakeIndexRemove m.stake_index old_stake node_id
      let idx2 := if v'.total_stake > 0 then
          stakeIndexInsert idx1 v'.total_stake node_id
        else idx1
      some ({ m with
                validators := alistUpdate node_id v' m.validators,
                stake_index := idx2 }, slash_amount)

/-- The weighted candidate list built by `select_leader` from the active
set (ids missing from the validator map are skipped by `filter_map`). -/
def leaderCandidates (m : ValidatorManager) : List (String × Nat) :=
  m.active_set.filterMap (fun id =>
    (alistFind id m.validators).map (fun v => (id, v.total_stake)))

/-- `ValidatorManager::select_leader`: `α = le_bytes(height) ∥
le_bytes(round)`, VRF with the node's secret, then Follow-the-Satoshi over
the active set weighted by total stake. -/
def select_leader (m : ValidatorManager) (height round : Nat) :
    Option String :=
  if m.active_set.isEmpty then none
  else
    let alpha := le8 height ++ le8 round
    let vrfRes := vrf_prove m.vrf_sk alpha
    select_validator_with_vrf vrfRes.2 (leaderCandidates m)

/-! ## Optimized PBFT engine — `services/consensus-core/src/optimized_pbft.rs` -/

/-- `AggregatedVotes`; the Bloom filter (`bloom.check` before the
authoritative `validators.contains` check; `bloom.set` exactly when a
validator is pushed) is modelled as exact membership of `validators`. -/
structure AggregatedVotes where
  validators : List String
  aggregate_sig : Bytes
  deriving Repr, DecidableEq

/-- `AggregatedVotes::new` (the capacity argument only sizes buffers). -/
def AggregatedVotes.new : AggregatedVotes := ⟨[], List.replicate 96 0⟩

/-- `AggregatedVotes::add`: reject a validator already present, otherwise
push it and fold the signature into the XOR aggregate.  Returns the updated
votes and the `bool` result of the source. -/
def AggregatedVotes.add (av : AggregatedVotes) (validator : String)
    (sig : Bytes) : AggregatedVotes × Bool :=
  if av.validators.contains validator then (av, false)
  else
    ({ validators := av.validators ++ [validator],
       aggregate_sig := aggregate_signatures [av.aggregate_sig, sig] }, true)

/-- `AggregatedVotes::count`. -/
def AggregatedVotes.count (av : AggregatedVotes) : Nat :=
  av.validators.length

/-- `AggregatedVotes::has_quorum`:
`count >= total_validators * 2 / 3 + 1` (integer division). -/
def AggregatedVotes.has_quorum (av : AggregatedVotes)
    (total_validators : Nat) : Bool :=
  decide (av.count ≥ total_validators * 2 / 3 + 1)

/-- `PhaseState` of the optimized engine. -/
structure OptPhaseState where
  pre_prepare_received : Bool
  prepare_votes : AggregatedVotes
  commit_votes : AggregatedVotes
  finalized : Bool
  proposal_hash : Option Bytes
  payload : Option Bytes
  deriving Repr, DecidableEq

/-- `PhaseState::new`. -/
def OptPhaseState.new : OptPhaseState :=
  ⟨false, AggregatedVotes.new, AggregatedVotes.new, false, none, none⟩

/-- `Checkpoint` of the optimized engine. -/
structure Checkpoint where
  height : Nat
  state_root : Bytes
  validator_signatures : AggregatedVotes
  timestamp : Int
  deriving Repr, DecidableEq

/-- `PbftMessage` wire enum of the optimized engine. -/
inductive PbftMessage where
  | PrePrepare (height round : Nat) (proposal_hash payload leader_sig : Bytes)
  | Prepare (height round : Nat) (proposal_hash : Bytes) (validator : String)
      (signature : Bytes)
  | Commit (height round : Nat) (proposal_hash : Bytes) (validator : String)
      (signature : Bytes)
  | ViewChange (height new_view : Nat) (validator : String) (signature : Bytes)
  deriving Repr, DecidableEq

/-- Mutable state of `OptimizedPbft` (channels, keys and metrics other than
the counters erased; atomics and locks flattened into plain fields). -/
structure OptimizedPbft where
  validators : List (String × (Bytes × Nat))
  current_height : Nat
  current_round : Nat
  current_view : Nat
  phases : List ((Nat × Nat) × OptPhaseState)
  checkpoints : List (Nat × Checkpoint)
  checkpoint_interval : Nat
  total_rounds : Nat
  byzantine_faults : Nat
  deriving Repr, DecidableEq

/-- `OptimizedPbft::process_verified_message` as a state transition; `now`
is the wall clock used by `create_checkpoint`. -/
def process_verified_message (s : OptimizedPbft) (now : Int)
    (msg : PbftMessage) : OptimizedPbft :=
  let validator_count := s.validators.length
  match msg with
  | .PrePrepare height round proposal_hash payload _ =>
      let key := (height, round)
      let res := alistGetOrInsert key OptPhaseState.new s.phases
      let phase := res.2
      if phase.pre_prepare_received then { s with phases := res.1 }
      else
        let phase' := { phase with
          pre_prepare_received := true,
          proposal_hash := some proposal_hash,
          payload := some payload }
        { s with phases := alistUpdate key phase' res.1 }
  | .Prepare height round proposal_hash validator signature =>
      let key := (height, round)
      let res := alistGetOrInsert key OptPhaseState.new s.phases
      let phase := res.2
      if phase.proposal_hash == some proposal_hash then
        -- reaching a prepare quorum only logs and (TODO in the source)
        -- would broadcast a commit; no state beyond the vote set changes
        let voteRes := phase.prepare_votes.add validator signature
        { s with phases :=
            alistUpdate key { phase with prepare_votes := voteRes.1 } res.1 }
      else
        { s with
            phases := res.1,
            byzantine_faults := s.byzantine_faults + 1 }
  | .Commit height round proposal_hash validator signature =>
      let key := (height, round)
      let res := alistGetOrInsert key OptPhaseState.new s.phases
      let phase := res.2
      if phase.proposal_hash == some proposal_hash then
        let voteRes := phase.commit_votes.add validator signature
        if voteRes.2 && voteRes.1.has_quorum validator_count &&
            !phase.finalized then
          let phase' := { phase with
            commit_votes := voteRes.1,
            finalized := true }
          let s1 := { s with
            phases := alistUpdate key phase' res.1,
            current_height := height }
          if height % s.checkpoint_interval == 0 then
            { s1 with
                checkpoints := alistInsert height
                  ⟨height, proposal_hash, voteRes.1, now⟩ s1.checkpoints }
          else s1
        else
          { s with phases :=
              alistUpdate key { phase with commit_votes := voteRes.1 } res.1 }
      else { s with phases := res.1 }
  | .ViewChange _ _ _ _ => { s with phases := s.phases }

/-! ## Core-library PBFT engine — `libs/rust/core/src/consensus/pbft.rs` -/

/-- `PBFTConfig` (`NodeId` modelled as `String`, `Duration` as `Nat`). -/
structure PBFTConfig where
  node_id : String
  peers : List String
  view : Nat
  f : Nat
  checkpoint_interval : Nat
  msg_timeout : Nat
  deriving Repr, DecidableEq

/-- `PBFTConfig::quorum`: `2 * f + 1`. -/
def PBFTConfig.quorum (cfg : PBFTConfig) : Nat := 2 * cfg.f + 1

/-- `PBFTMessage` of the core library. -/
inductive PBFTMessage where
  | PrePrepare (view seq : Nat) (digest : Bytes) (proposer : String)
  | Prepare (view seq : Nat) (digest : Bytes) (node : String)
  | Commit (view seq : Nat) (digest : Bytes) (node : String)
  | ViewChange (new_view : Nat) (node : String)
  deriving Repr, DecidableEq

/-- `InFlight` bookkeeping of one sequence number
(`preprepare_time` erased). -/
structure InFlight where
  view : Nat
  seq : Nat
  digest : Bytes
  prepares : List String
  commits : List String
  deriving Repr, DecidableEq

/-- The `State` behind `PBFTConsensus`'s lock. -/
structure PBFTEngineState where
  current_view : Nat
  next_seq : Nat
  inflight : List (Nat × InFlight)
  committed : List (Nat × Bytes)
  deriving Repr, DecidableEq

/-- `PBFTConsensus::handle_message`: returns the new state and the
outbound messages. -/
def handle_message (cfg : PBFTConfig) (st : PBFTEngineState)
    (msg : PBFTMessage) : PBFTEngineState × List PBFTMessage :=
  match msg with
  | .PrePrepare view seq digest _ =>
      if view ≠ st.current_view then (st, [])
      else
        let res := alistGetOrInsert seq ⟨view, seq, digest, [], []⟩ st.inflight
        ({ st with inflight := res.1 },
         [.Prepare view seq digest cfg.node_id])
  | .Prepare view seq digest node =>
      match alistFind seq st.inflight with
      | none => (st, [])
      | some inf =>
          if inf.view == view && inf.digest == digest then
            let inf' := { inf with prepares := setInsert node inf.prepares }
            let out := if inf'.prepares.length + 1 ≥ cfg.quorum then
                [PBFTMessage.Commit view seq digest cfg.node_id]
              else []
            ({ st with inflight := alistUpdate seq inf' st.inflight }, out)
          else (st, [])
  | .Commit view seq digest node =>
      match alistFind seq st.inflight with
      | none => (st, [])
      | some inf =>
          if inf.view == view && inf.digest == digest then
            let inf' := { inf with commits := setInsert node inf.commits }
            let st1 := { st with inflight := alistUpdate seq inf' st.inflight }
            if inf'.commits.length + 1 ≥ cfg.quorum then
              ({ st1 with committed := alistInsert seq digest st1.committed },
               [])
            else (st1, [])
          else (st, [])
  | .ViewChange new_view _ =>
      if new_view > st.current_view then
        ({ st with current_view := new_view }, [])
      else (st, [])

/-! ## gRPC PBFT service — `services/consensus-core/src/lib.rs` -/

/-- ASCII bytes of `"consensus-vrf-seed"`. -/
def bytesConsensusVrfSeed : Bytes :=
  [99, 111, 110, 115, 101, 110, 115, 117, 115, 45, 118, 114, 102, 45, 115,
   101, 101, 100]

/-- `weighted_leader` of `lib.rs`: VRF keypair from a deterministic
per-(height, round) seed, `α = le_bytes(height) ∥ le_bytes(round)`, then
Follow-the-Satoshi with every missing stake defaulting to 1. -/
def weighted_leader (height round : Nat) (validators : List String)
    (stakes : List (String × Nat)) : Option String :=
  if validators.isEmpty then none
  else
    let alpha := le8 height ++ le8 round
    let seed := bytesConsensusVrfSeed ++ le8 height ++ le8 round
    let kp := generate_vrf_keypair seed
    let proveRes := vrf_prove kp.1 alpha
    let validator_stakes := validators.map (fun v =>
      (v, (alistFind v stakes).getD 1))
    select_validator_with_vrf proveRes.2 validator_stakes

/-- `PhaseVotes` of the service (`start : Option Instant` as `Option Int`). -/
structure PhaseVotes where
  prepares : List String
  commits : List String
  pre_prepare_seen : Bool
  start : Option Int
  checkpoint_created : Bool
  batch_size : Nat
  deriving Repr, DecidableEq

/-- `PhaseVotes::default()`. -/
def PhaseVotes.empty : PhaseVotes := ⟨[], [], false, none, false, 0⟩

/-- `PbftState` of the service. -/
structure PbftState where
  height : Nat
  round : Nat
  leader : String
  validators : List String
  stakes : List (String × Nat)
  last_checkpoint : Nat
  checkpoint_interval : Nat
  byzantine_faults_detected : Nat
  total_rounds : Nat
  jailed_validators : List String
  jail_release_heights : List (String × Nat)
  slashing_records : List SlashingRecord
  deriving Repr, DecidableEq

/-- `PbftService`: the shared consensus state plus the per-(height, round)
phase map (`round_starts` metric bookkeeping erased). -/
structure PbftService where
  state : PbftState
  phases : List ((Nat × Nat) × PhaseVotes)
  deriving Repr, DecidableEq

/-- `PbftService::quorum`: `validators.len() * 2 / 3 + 1`. -/
def PbftService.quorum (svc : PbftService) : Nat :=
  svc.state.validators.length * 2 / 3 + 1

/-- `PbftService::slash_validator` (for misbehaviour detected by the
service): no-op on zero stake, otherwise subtract the calculated amount
from the stake map, jail the validator until
`height + jail_duration_blocks`, and append the slashing record. -/
def service_slash_validator (svc : PbftService) (validator : String)
    (reason : SlashReason) (height : Nat) (now : Int) : PbftService :=
  let current_stake := (alistFind validator svc.state.stakes).getD 0
  if current_stake = 0 then svc
  else
    let config := SlashingConfig.default
    let slash_amount := calculate_slash_amount current_stake reason config
    let new_stake := current_stake - slash_amount
    let record : SlashingRecord := ⟨validator, height, reason, slash_amount, now⟩
    { svc with state := { svc.state with
        stakes := alistInsert validator new_stake svc.state.stakes,
        jailed_validators := setInsert validator svc.state.jailed_validators,
        jail_release_heights := alistInsert validator
          (height + config.jail_duration_blocks)
          svc.state.jail_release_heights,
        slashing_records := svc.state.slashing_records ++ [record] } }

/-- `PbftService::detect_byzantine`: a validator found in both the prepare
and the commit set of `(height, round)` bumps the Byzantine counter and is
slashed with reason `ByzantineBehavior` (no digest is consulted — the
`PhaseVotes` sets carry none). -/
def detect_byzantine (svc : PbftService) (height round : Nat)
    (node : String) (now : Int) : PbftService × Bool :=
  match alistFind (height, round) svc.phases with
  | some entry =>
      if entry.prepares.contains node && entry.commits.contains node then
        let svc1 := { svc with state := { svc.state with
          byzantine_faults_detected :=
            svc.state.byzantine_faults_detected + 1 } }
        (service_slash_validator svc1 node SlashReason.ByzantineBehavior
          height now, true)
      else (svc, false)
  | none => (svc, false)

/-- `record_prepare`: insert the node into the prepare set of
`(height, round)` and return the new set size. -/
def record_prepare (svc : PbftService) (height round : Nat) (node : String) :
    PbftService × Nat :=
  let res := alistGetOrInsert (height, round) PhaseVotes.empty svc.phases
  let entry := { res.2 with prepares := setInsert node res.2.prepares }
  ({ svc with phases := alistUpdate (height, round) entry res.1 },
   entry.prepares.length)

/-- `record_commit`: insert the node into the commit set of
`(height, round)` and return the new set size. -/
def record_commit (svc : PbftService) (height round : Nat) (node : String) :
    PbftService × Nat :=
  let res := alistGetOrInsert (height, round) PhaseVotes.empty svc.phases
  let entry := { res.2 with commits := setInsert node res.2.commits }
  ({ svc with phases := alistUpdate (height, round) entry res.1 },
   entry.commits.length)

/-- `elect_leader`: recompute the weighted leader, keeping the old one when
the validator set is empty or the VRF selection returns nothing. -/
def elect_leader (svc : PbftService) (height round : Nat) : PbftService :=
  if svc.state.validators.isEmpty then svc
  else
    match weighted_leader height round svc.state.validators
        svc.state.stakes with
    | some l => { svc with state := { svc.state with leader := l } }
    | none => svc

/-- The `Vote` request message. -/
structure Vote where
  proposal_id : String
  node_id : String
  height : Nat
  round : Nat
  vote_type : Nat
  deriving Repr, DecidableEq

/-- Outcome of `cast_vote`: `byzantine_rejected` and
`unknown_vote_type` model the `Err(Status)` returns, the other two the
`Ok(Ack)` returns. -/
inductive CastVoteResult where
  | byzantine_rejected
  | prepare_recorded
  | commit_recorded
  | unknown_vote_type
  deriving Repr, DecidableEq

/-- `PbftService::cast_vote` as a state transition (metrics, persistence and
the broadcast task erased; `now` is the wall clock used for slashing
records). -/
def cast_vote (svc : PbftService) (vote : Vote) (now : Int) :
    PbftService × CastVoteResult :=
  let byzRes := detect_byzantine svc vote.height vote.round vote.node_id now
  if byzRes.2 then (byzRes.1, .byzantine_rejected)
  else
    let svc1 := byzRes.1
    let st := svc1.state
    let st1 := if vote.height > st.height then
        { st with height := vote.height, round := vote.round }
      else st
    let st2 := { st1 with total_rounds := max st1.total_rounds vote.round }
    let svc2 := { svc1 with state := st2 }
    let quorum := svc2.quorum
    if vote.vote_type = 0 then
      let prepRes := record_prepare svc2 vote.height vote.round vote.node_id
      let svc3 := prepRes.1
      if prepRes.2 ≥ quorum then
        let res := alistGetOrInsert (vote.height, vote.round)
          PhaseVotes.empty svc3.phases
        let svc4 := { svc3 with
          phases := alistUpdate (vote.height, vote.round)
            { res.2 with batch_size := prepRes.2 } res.1 }
        (svc4, .prepare_recorded)
      else (svc3, .prepare_recorded)
    else if vote.vote_type = 1 then
      let commitRes := record_commit svc2 vote.height vote.round vote.node_id
      let svc3 := commitRes.1
      if commitRes.2 ≥ quorum then
        let svc4 := elect_leader svc3 vote.height vote.round
        let should_checkpoint := vote.height > 0 &&
          vote.height % svc4.state.checkpoint_interval == 0
        if should_checkpoint then
          let res := alistGetOrInsert (vote.height, vote.round)
            PhaseVotes.empty svc4.phases
          let svc5 := { svc4 with
            phases := alistUpdate (vote.height, vote.round)
              { res.2 with checkpoint_created := true } res.1 }
          (svc5, .commit_recorded)
        else (svc4, .commit_recorded)
      else (svc3, .commit_recorded)
    else (svc2, .unknown_vote_type)

/-! ## Circuit breaker — `libs/rust/core/src/resilience_advanced.rs`

`Instant` is modelled as a `Nat` clock value passed into every operation;
`Duration` fields are `Nat` in the same unit.  The `f64` failure threshold
and the observed failure rate are `ℚ`. -/

/-- `CircuitState`. -/
inductive CircuitState where
  | Closed
  | Open
  | HalfOpen
  deriving Repr, DecidableEq

/-- `CircuitBreakerConfig`. -/
structure CircuitBreakerConfig where
  failure_threshold : ℚ
  success_threshold : Nat
  timeout : Nat
  min_requests : Nat
  window_size : Nat
  buckets : Nat
  deriving Repr, DecidableEq

/-- One time bucket of the rolling window. -/
structure BucketStats where
  successes : Nat
  failures : Nat
  timestamp : Option Nat
  deriving Repr, DecidableEq

/-- `CircuitStats`: the bucketed rolling window. -/
structure CircuitStats where
  buckets : List BucketStats
  bucket_size : Nat
  max_buckets : Nat
  last_update : Nat
  deriving Repr, DecidableEq

/-- `CircuitStats::rotate_if_needed`: when a bucket length has elapsed,
open a fresh bucket and drop the oldest ones beyond `max_buckets`. -/
def CircuitStats.rotate_if_needed (cs : CircuitStats) (now : Nat) :
    CircuitStats :=
  if now - cs.last_update ≥ cs.bucket_size then
    let buckets1 := cs.buckets ++ [⟨0, 0, some now⟩]
    { cs with
        buckets := buckets1.drop (buckets1.length - cs.max_buckets),
        last_update := now }
  else cs

/-- Bump the last bucket of the window. -/
def bumpLastBucket (success : Bool) (l : List BucketStats) :
    List BucketStats :=
  match l.getLast? with
  | none => l
  | some b => l.dropLast ++
      [if success then { b with successes := b.successes + 1 }
       else { b with failures := b.failures + 1 }]

/-- `CircuitStats::record`. -/
def CircuitStats.record (cs : CircuitStats) (now : Nat) (success : Bool) :
    CircuitStats :=
  let cs1 := cs.rotate_if_needed now
  let cs2 := if cs1.buckets.isEmpty then
      { cs1 with buckets := [⟨0, 0, some now⟩] }
    else cs1
  { cs2 with buckets := bumpLastBucket success cs2.buckets }

/-- `CircuitStats::totals`: `(successes, failures)` summed over the
window. -/
def CircuitStats.totals (cs : CircuitStats) : Nat × Nat :=
  ((cs.buckets.map BucketStats.successes).sum,
   (cs.buckets.map BucketStats.failures).sum)

/-- `CircuitStats::failure_rate`: `failures / total`, `0` on an empty
window. -/
def CircuitStats.failure_rate (cs : CircuitStats) : ℚ :=
  let s := (cs.buckets.map BucketStats.successes).sum
  let f := (cs.buckets.map BucketStats.failures).sum
  if s + f = 0 then 0 else (f : ℚ) / ((s : ℚ) + (f : ℚ))

/-- `CircuitBreaker` (name and locks erased). -/
structure CircuitBreaker where
  state : CircuitState
  config : CircuitBreakerConfig
  stats : CircuitStats
  opened_at : Option Nat
  half_open_successes : Nat
  deriving Repr, DecidableEq

/-- `CircuitBreaker::allow`: `Closed` and `HalfOpen` admit; `Open` admits
exactly when the open timeout has elapsed, in which case the breaker moves
to `HalfOpen` with a reset success counter. -/
def CircuitBreaker.allow (cb : CircuitBreaker) (now : Nat) :
    Bool × CircuitBreaker :=
  match cb.state with
  | .Closed => (true, cb)
  | .Open =>
      match cb.opened_at with
      | some t =>
          if now - t ≥ cb.config.timeout then
            (true, { cb with state := .HalfOpen, half_open_successes := 0 })
          else (false, cb)
      | none => (false, cb)
  | .HalfOpen => (true, cb)

/-- `CircuitBreaker::record_result`: record into the window, then, from
`Closed`, open when the sample reaches `min_requests` and the failure rate
reaches the threshold; from `HalfOpen`, close after `success_threshold`
successes or reopen on any failure. -/
def CircuitBreaker.record_result (cb : CircuitBreaker) (now : Nat)
    (success : Bool) : CircuitBreaker :=
  let stats1 := cb.stats.record now success
  let cb1 := { cb with stats := stats1 }
  match cb.state with
  | .Closed =>
      let t := stats1.totals
      if t.1 + t.2 ≥ cb.config.min_requests then
        if stats1.failure_rate ≥ cb.config.failure_threshold then
          { cb1 with state := .Open, opened_at := some now }
        else cb1
      else cb1
  | .HalfOpen =>
      if success then
        let successes := cb.half_open_successes + 1
        if successes ≥ cb.config.success_threshold then
          { cb1 with
              state := .Closed,
              opened_at := none,
              half_open_successes := successes }
        else { cb1 with half_open_successes := successes }
      else
        { cb1 with
            state := .Open,
            opened_at := some now,
            half_open_successes := 0 }
  | .Open => cb1

/-! ## Test vectors and example states

Concrete inputs used by the verified properties; the seeds and messages are
the repository's own test vectors
(`test_sign_verify`, `test_vrf_prove_verify`, `test_aggregate`). -/

/-- ASCII bytes of `"validator-1"`. -/
def bytesValidator1 : Bytes :=
  [118, 97, 108, 105, 100, 97, 116, 111, 114, 45, 49]

/-- ASCII bytes of `"block-hash-123"`. -/
def bytesBlockHash123 : Bytes :=
  [98, 108, 111, 99, 107, 45, 104, 97, 115, 104, 45, 49, 50, 51]

/-- ASCII bytes of `"block-height-100-round-5"`. -/
def bytesAlphaTest : Bytes :=
  [98, 108, 111, 99, 107, 45, 104, 101, 105, 103, 104, 116, 45, 49, 48, 48,
   45, 114, 111, 117, 110, 100, 45, 53]

/-- ASCII bytes of `"consensus-block"`. -/
def bytesConsensusBlock : Bytes :=
  [99, 111, 110, 115, 101, 110, 115, 117, 115, 45, 98, 108, 111, 99, 107]

/-- ASCII bytes of the seeds `"node-0"` … `"node-4"` of `test_aggregate`. -/
def aggregateTestSeeds : List Bytes :=
  [[110, 111, 100, 101, 45, 48], [110, 111, 100, 101, 45, 49],
   [110, 111, 100, 101, 45, 50], [110, 111, 100, 101, 45, 51],
   [110, 111, 100, 101, 45, 52]]

/-- The Follow-the-Satoshi target computed inside `select_leader`: the first
8 bytes of the VRF output over `α = le_bytes(height) ∥ le_bytes(round)`,
reduced modulo the total candidate stake. -/
def leaderTarget (m : ValidatorManager) (height round : Nat) : Nat :=
  leU64 (vrf_prove m.vrf_sk (le8 height ++ le8 round)).2 %
    sumStakes (leaderCandidates m)

/-- An example validator record (self-stake 10000, one delegation-free
validator as in the repository's `test_slashing`). -/
def exampleValidator : Validator where
  node_id := "node-1"
  bls_pubkey := List.replicate 48 0
  vrf_pubkey := List.replicate 32 0
  stake := 10000
  delegated_stake := 0
  commission_rate := 1 / 10
  jailed := false
  jail_until_height := 0
  slashing_history := []
  reputation_score := 1
  uptime_blocks := 0
  total_blocks := 0
  last_active_height := 0
  created_at := 0
  updated_at := 0

/-- An example manager holding `exampleValidator`. -/
def exampleManager : ValidatorManager where
  validators := [("node-1", exampleValidator)]
  active_set := ["node-1"]
  stake_index := [(10000, ["node-1"])]
  delegations := []
  min_stake := 1000
  max_validators := 100
  epoch_length := 100
  slashing_config := SlashingConfig.default
  vrf_sk := List.replicate 32 0
  vrf_pk := List.replicate 32 0
  current_height := 0
  current_epoch := 0

/-- A two-validator manager (stakes 100 and 50) for leader selection. -/
def exampleLeaderManager : ValidatorManager where
  validators :=
    [("a", { exampleValidator with node_id := "a", stake := 100 }),
     ("b", { exampleValidator with node_id := "b", stake := 50 })]
  active_set := ["a", "b"]
  stake_index := [(100, ["a"]), (50, ["b"])]
  delegations := []
  min_stake := 1
  max_validators := 100
  epoch_length := 100
  slashing_config := SlashingConfig.default
  vrf_sk := List.replicate 32 7
  vrf_pk := List.replicate 32 0
  current_height := 0
  current_epoch := 0

/-- An example phase with a recorded pre-prepare digest of 32 `1`-bytes. -/
def examplePhase : OptPhaseState :=
  { OptPhaseState.new with
      pre_prepare_received := true,
      proposal_hash := some (List.replicate 32 1) }

/-- A one-validator optimized engine whose phase `(1, 0)` carries the
digest of `examplePhase`. -/
def exampleEngine : OptimizedPbft where
  validators := [("b", (List.replicate 48 0, 100))]
  current_height := 0
  current_round := 0
  current_view := 0
  phases := [((1, 0), examplePhase)]
  checkpoints := []
  checkpoint_interval := 100
  total_rounds := 0
  byzantine_faults := 0

/-- A phase-vote entry of the service with `"node-1"` in both sets. -/
def exampleEntry : PhaseVotes :=
  { PhaseVotes.empty with prepares := ["node-1"], commits := ["node-1"] }

/-- A four-validator service whose phase `(1, 0)` is `exampleEntry`. -/
def exampleService : PbftService where
  state :=
    { height := 1
      round := 0
      leader := "node-0"
      validators := ["node-0", "node-1", "node-2", "node-3"]
      stakes := [("node-0", 100), ("node-1", 100), ("node-2", 100),
                 ("node-3", 100)]
      last_checkpoint := 0
      checkpoint_interval := 100
      byzantine_faults_detected := 0
      total_rounds := 0
      jailed_validators := []
      jail_release_heights := []
      slashing_records := [] }
  phases := [((1, 0), exampleEntry)]

/-- A freshly started four-validator service with empty phases. -/
def exampleFreshService : PbftService where
  state :=
    { height := 0
      round := 0
      leader := "node-0"
      validators := ["node-0", "node-1", "node-2", "node-3"]
      stakes := [("node-0", 100), ("node-1", 100), ("node-2", 100),
                 ("node-3", 100)]
      last_checkpoint := 0
      checkpoint_interval := 100
      byzantine_faults_detected := 0
      total_rounds := 0
      jailed_validators := []
      jail_release_heights := []
      slashing_records := [] }
  phases := []

/-- An open example circuit breaker (timeout 5, opened at instant 0). -/
def exampleBreaker : CircuitBreaker where
  state := CircuitState.Open
  config :=
    { failure_threshold := 1 / 2
      success_threshold := 2
      timeout := 5
      min_requests := 2
      window_size := 60
      buckets := 10 }
  stats := { buckets := [], bucket_size := 6, max_buckets := 10,
             last_update := 0 }
  opened_at := some 0
  half_open_successes := 0

/-! ## Sanity anchors

Cross-checks of the embedded hash functions and key derivation against
FIPS 180-4 test vectors and the `sha2` crate. -/

/-- Sanity anchor: SHA-256 of `"abc"` matches the FIPS 180-4 test vector. -/
theorem sha256_abc :
    sha256 [97, 98, 99] =
      [186, 120, 22, 191, 143, 1, 207, 234, 65, 65, 64, 222, 93, 174, 34, 35,
       176, 3, 97, 163, 150, 23, 122, 156, 180, 16, 255, 97, 242, 0, 21, 173] := by
  decide

/-- Sanity anchor: SHA-512 of `"abc"` matches the FIPS 180-4 test vector. -/
theorem sha512_abc :
    sha512 [97, 98, 99] =
      [221, 175, 53, 161, 147, 97, 122, 186, 204, 65, 115, 73, 174, 32, 65, 49,
       18, 230, 250, 78, 137, 169, 126, 162, 10, 158, 238, 230, 75, 85, 211, 154,
       33, 146, 153, 42, 39, 79, 193, 168, 54, 186, 60, 35, 163, 254, 235, 189,
       69, 77, 68, 35, 100, 60, 232, 14, 42, 154, 201, 79, 165, 76, 164, 159] := by
  decide

/-- Sanity anchor: the public key derived from seed `"validator-1"` matches
the digest chain of the source (cross-checked against the `sha2` crate). -/
theorem generate_keypair_validator1 :
    (generate_keypair [118, 97, 108, 105, 100, 97, 116, 111, 114, 45, 49]).2 =
      [179, 209, 223, 27, 243, 29, 193, 196, 230, 178, 183, 201, 89, 165, 194,
       183, 191, 226, 199, 246, 223, 31, 131, 243, 231, 225, 182, 104, 206, 155,
       165, 54, 0, 0, 0, 0, 0, 0, 0, 0, 0, 0, 0, 0, 0, 0, 0, 0] := by
  decide

/-! ## Helper lemmas -/

/-- Sum of stakes distributes over `cons`. -/
theorem sumStakes_cons (p : String × Nat) (l : List (String × Nat)) :
    sumStakes (p :: l) = p.2 + sumStakes l := by
  simp [sumStakes]

/-- Looking up a key after rewriting its binding returns the new value. -/
theorem alistFind_alistUpdate {κ α : Type} [BEq κ] [LawfulBEq κ]
    (k : κ) (v' : α) (l : List (κ × α)) (v : α)
    (h : alistFind k l = some v) :
    alistFind k (alistUpdate k v' l) = some v' := by
  induction l with
  | nil => simp [alistFind] at h
  | cons p t ih =>
      by_cases hp : (p.1 == k) = true
      · have hrw : alistUpdate k v' (p :: t) = (k, v') :: alistUpdate k v' t := by
          simp [alistUpdate, hp]
        rw [hrw]
        simp [alistFind, List.find?]
      · have hrw : alistUpdate k v' (p :: t) = p :: alistUpdate k v' t := by
          simp [alistUpdate, hp]
        rw [hrw]
        simp only [alistFind, List.find?, hp] at h ⊢
        exact ih h

/-- Characterisation of the Follow-the-Satoshi scan: if the target lies in
the total cumulative range, the scan returns the first validator whose
cumulative-stake interval contains it. -/
theorem fts_scan_spec (target : Nat) :
    ∀ (l : List (String × Nat)) (cum : Nat),
      cum ≤ target → target < cum + sumStakes l →
      ∃ i, ∃ hlt : i < l.length,
        fts_scan target cum l = some (l.get ⟨i, hlt⟩).1 ∧
        cum + sumStakes (l.take i) ≤ target ∧
        target < cum + sumStakes (l.take (i + 1)) := by
  intro l
  induction l with
  | nil =>
      intro cum h1 h2
      simp [sumStakes] at h2
      omega
  | cons hd tl ih =>
      intro cum h1 h2
      by_cases hcase : target < cum + hd.2
      · refine ⟨0, by simp, ?_, ?_, ?_⟩
        · simp [fts_scan, hcase]
        · simpa [sumStakes] using h1
        · simpa [List.take_succ_cons, sumStakes_cons, sumStakes] using hcase
      · push_neg at hcase
        have hsum : sumStakes (hd :: tl) = hd.2 + sumStakes tl :=
          sumStakes_cons hd tl
        obtain ⟨i, hlt, heq, hlo, hhi⟩ :=
          ih (cum + hd.2) hcase (by omega)
        refine ⟨i + 1, by simpa using Nat.succ_lt_succ hlt, ?_, ?_, ?_⟩
        · have hstep : fts_scan target cum (hd :: tl) =
              fts_scan target (cum + hd.2) tl := by
            simp [fts_scan, Nat.not_lt.mpr hcase]
          rw [hstep, heq]
          rfl
        · rw [List.take_succ_cons, sumStakes_cons]
          omega
        · rw [List.take_succ_cons, sumStakes_cons]
          omega

/-- Pointwise XOR of byte lists is left-commutative. -/
theorem xorBytes_left_comm (z a b : Bytes) :
    xorBytes (xorBytes z a) b = xorBytes (xorBytes z b) a := by
  induction z generalizing a b with
  | nil => simp [xorBytes]
  | cons x zt ih =>
      cases a with
      | nil => cases b <;> simp [xorBytes]
      | cons ha ta =>
          cases b with
          | nil => simp [xorBytes]
          | cons hb tb =>
              simp only [xorBytes, List.zipWith_cons_cons] at ih ⊢
              refine congrArg₂ (· :: ·) ?_ (ih ta tb)
              rw [Nat.xor_assoc, Nat.xor_assoc, Nat.xor_comm ha hb]

/-- Folding `xorBytes` is invariant under permutations of the input. -/
theorem foldl_xorBytes_perm {l₁ l₂ : List Bytes} (h : l₁.Perm l₂) :
    ∀ z, l₁.foldl xorBytes z = l₂.foldl xorBytes z := by
  induction h with
  | nil => intro z; rfl
  | cons x _ ih => intro z; simp only [List.foldl_cons]; exact ih _
  | swap x y l => intro z; simp only [List.foldl_cons]; rw [xorBytes_left_comm]
  | trans _ _ ih1 ih2 => intro z; exact (ih1 z).trans (ih2 z)

/-! ## Verified properties -/

/-- C1 — counterexample.  With an active set of 5 validators,
`f = ⌊(5 − 1) / 3⌋ = 1`, so `2f + 1 = 3`; a vote set of size 3 meets the
claimed `2f + 1` quorum, yet `AggregatedVotes::has_quorum` (threshold
`5 * 2 / 3 + 1 = 4`) returns `false`. -/
theorem has_quorum_counterexample :
    AggregatedVotes.has_quorum ⟨["a", "b", "c"], List.replicate 96 0⟩ 5 =
      false ∧
    (AggregatedVotes.count ⟨["a", "b", "c"], List.replicate 96 0⟩ = 3 ∧
      2 * ((5 - 1) / 3) + 1 ≤ 3) := by
  decide

/-- C1 (corrected): `has_quorum` returns true iff the vote count reaches
`⌊2n/3⌋ + 1`; this threshold always dominates the claimed `2f + 1` with
`f = ⌊(n − 1)/3⌋`, and the two coincide exactly when `n ≡ 1 (mod 3)`
(e.g. the 4-validator default).  The core-library engine's check
(`PBFTConfig::quorum`) is `2f + 1` with a self-vote offset of one. -/
theorem has_quorum_threshold (av : AggregatedVotes) (n : Nat)
    (cfg : PBFTConfig) :
    (av.has_quorum n = true ↔ n * 2 / 3 + 1 ≤ av.count) ∧
    2 * ((n - 1) / 3) + 1 ≤ n * 2 / 3 + 1 ∧
    (n % 3 = 1 → n * 2 / 3 + 1 = 2 * ((n - 1) / 3) + 1) ∧
    cfg.quorum = 2 * cfg.f + 1 := by
  refine ⟨?_, by omega, fun h => by omega, rfl⟩
  simp [AggregatedVotes.has_quorum, ge_iff_le]

/-- C1 — witness for `has_quorum_threshold` at `n = 4` and `n = 7`
(both `≡ 1 (mod 3)`, discharging the modular hypothesis by `rfl`). -/
theorem has_quorum_threshold_witness :
    (AggregatedVotes.has_quorum ⟨["a", "b", "c"], List.replicate 96 0⟩ 4 =
        true ↔
      4 * 2 / 3 + 1 ≤ AggregatedVotes.count ⟨["a", "b", "c"],
        List.replicate 96 0⟩) ∧
    7 * 2 / 3 + 1 = 2 * ((7 - 1) / 3) + 1 :=
  ⟨(has_quorum_threshold ⟨["a", "b", "c"], List.replicate 96 0⟩ 4
      ⟨"n", [], 0, 1, 50, 5⟩).1,
   (has_quorum_threshold AggregatedVotes.new 7 ⟨"n", [], 0, 2, 50, 5⟩).2.2.1
      rfl⟩

/-- C4 (code bug): on the repository's own test vector
(seed `"validator-1"`, `α = "block-height-100-round-5"`), `vrf_verify`
rejects the proof produced by `vrf_prove` — the verifier recomputes the
challenge over the 32-byte `gamma` slice and a `check` digest, while the
prover hashed the 64-byte `gamma` and the nonce `k`, so the 16-byte
challenge never matches.  The claim (and `test_vrf_prove_verify`) expects
`Some β`. -/
theorem vrf_verify_rejects_honest_proof :
    vrf_verify (generate_vrf_keypair bytesValidator1).2 bytesAlphaTest
      (vrf_prove (generate_vrf_keypair bytesValidator1).1 bytesAlphaTest).1 =
      none := by
  decide

/-- C6 (code bug): on the repository's own test vector
(seed `"validator-1"`, message `"block-hash-123"`), `verify` rejects the
signature produced by `sign` — `recover_sk_from_pk` re-hashes the public
key bytes into a different secret key, so `pk_check != pk` and the
recomputed signature differs.  The claim (and `test_sign_verify`) expects
`true`. -/
theorem verify_rejects_honest_signature :
    verify (generate_keypair bytesValidator1).2 bytesBlockHash123
      (sign (generate_keypair bytesValidator1).1 bytesBlockHash123) =
      false := by
  decide

/-- C5 — counterexample.  On the repository's own `test_aggregate` vector
(seeds `"node-0"` … `"node-4"`, message `"consensus-block"`),
`verify(aggregate_pks, msg, aggregate_sigs)` returns `false`, not `true`:
the XOR-based mock aggregation does not support aggregate verification
(as the test's own comment concedes). -/
theorem aggregate_verify_counterexample :
    verify
      (aggregate_pubkeys (aggregateTestSeeds.map
        (fun s => (generate_keypair s).2)))
      bytesConsensusBlock
      (aggregate_signatures (aggregateTestSeeds.map
        (fun s => sign (generate_keypair s).1 bytesConsensusBlock))) =
      false := by
  decide

/-- C5 (corrected): aggregate verification fails on honestly generated
constituents (see the counterexample); what survives of the aggregation
contract is order-insensitivity — both `aggregate_signatures` and
`aggregate_pubkeys` are invariant under permutations of their input. -/
theorem aggregate_perm_invariant (sigs sigs' : List Bytes)
    (h : sigs.Perm sigs') :
    aggregate_signatures sigs = aggregate_signatures sigs' ∧
    aggregate_pubkeys sigs = aggregate_pubkeys sigs' := by
  have hlen := h.length_eq
  have hiff : ∀ (l : List Bytes), l.isEmpty = decide (l.length = 0) := by
    intro l
    cases l <;> rfl
  have hempty : sigs.isEmpty = sigs'.isEmpty := by
    rw [hiff, hiff, hlen]
  constructor
  · unfold aggregate_signatures
    rw [hempty, hlen, foldl_xorBytes_perm h]
  · unfold aggregate_pubkeys
    rw [hempty, hlen, foldl_xorBytes_perm h]

/-- C5 — witness for `aggregate_perm_invariant` on a concrete two-element
permutation. -/
theorem aggregate_perm_invariant_witness :
    aggregate_signatures [List.replicate 96 1, List.replicate 96 2] =
      aggregate_signatures [List.replicate 96 2, List.replicate 96 1] ∧
    aggregate_pubkeys [List.replicate 96 1, List.replicate 96 2] =
      aggregate_pubkeys [List.replicate 96 2, List.replicate 96 1] :=
  aggregate_perm_invariant _ _ (List.Perm.swap _ _ _)

/-- C3 — counterexample.  The optimized engine stores the finalizing height
into `current_height` unconditionally: with a single validator (quorum 1),
height 5 finalizes and sets `current_height = 5`; a later commit quorum at
height 3 also finalizes and lowers `current_height` to 3, although both
heights stay finalized. -/
theorem finalization_height_counterexample :
    let d1 : Bytes := List.replicate 32 1
    let d2 : Bytes := List.replicate 32 2
    let sig : Bytes := List.replicate 96 3
    let s0 : OptimizedPbft :=
      ⟨[("a", (List.replicate 48 0, 100))], 0, 0, 0, [], [], 100, 0, 0⟩
    let s2 := List.foldl (fun s m => process_verified_message s 0 m) s0
      [.PrePrepare 5 0 d1 [] sig, .Commit 5 0 d1 "a" sig]
    let s4 := List.foldl (fun s m => process_verified_message s 0 m) s2
      [.PrePrepare 3 0 d2 [] sig, .Commit 3 0 d2 "a" sig]
    s2.current_height = 5 ∧
    (alistFind (5, 0) s2.phases).map OptPhaseState.finalized = some true ∧
    s4.current_height = 3 ∧
    (alistFind (5, 0) s4.phases).map OptPhaseState.finalized = some true ∧
    (alistFind (3, 0) s4.phases).map OptPhaseState.finalized = some true := by
  decide

/-- C3 (corrected): the view is indeed monotone — the core-library engine
only ever raises `current_view` (`new_view > current_view` guard), and the
optimized engine never writes it — but finalization heights are not: a
later finalization can lower `current_height` (see the counterexample). -/
theorem view_never_decreases :
    (∀ (cfg : PBFTConfig) (st : PBFTEngineState) (msg : PBFTMessage),
        st.current_view ≤ (handle_message cfg st msg).1.current_view) ∧
    (∀ (s : OptimizedPbft) (now : Int) (msg : PbftMessage),
        (process_verified_message s now msg).current_view =
          s.current_view) := by
  constructor
  · intro cfg st msg
    unfold handle_message
    cases msg <;> dsimp only <;> (repeat' split) <;> simp <;> omega
  · intro s now msg
    unfold process_verified_message
    cases msg <;> dsimp only <;> (repeat' split) <;> rfl

/-- C2 — counterexample.  Validator `"b"` prepares digest `d1` and then
commits a distinct digest `d2` at the same `(height, round)` — the claimed
Byzantine-equivocation case — yet the engine state is left completely
unchanged: no slashing record is appended anywhere, and even the
Byzantine-fault counter stays 0.  (A second Prepare over `d2` would bump
only the counter, still with no slashing.) -/
theorem equivocation_not_slashed_counterexample :
    let d1 : Bytes := List.replicate 32 1
    let d2 : Bytes := List.replicate 32 2
    let sig : Bytes := List.replicate 96 3
    let s0 : OptimizedPbft :=
      ⟨[("b", (List.replicate 48 0, 100))], 0, 0, 0, [], [], 100, 0, 0⟩
    let s2 := List.foldl (fun s m => process_verified_message s 0 m) s0
      [.PrePrepare 1 0 d1 [] sig, .Prepare 1 0 d1 "b" sig]
    process_verified_message s2 0 (.Commit 1 0 d2 "b" sig) = s2 ∧
    s2.byzantine_faults = 0 ∧
    process_verified_message s2 0 (.Prepare 1 0 d2 "b" sig) =
      { s2 with byzantine_faults := 1 } := by
  decide

/-- C2 (corrected): a Prepare whose digest conflicts with the phase's
recorded proposal digest is rejected and only bumps the Byzantine-fault
counter; a conflicting Commit is dropped with the state left unchanged —
neither appends a slashing record.  A slashing record (with reason
`ByzantineBehavior`) is appended by the service path instead, and only
when a validator already present in both the prepare and the commit set of
`(height, round)` casts a further vote, regardless of digests. -/
theorem conflicting_vote_handling :
    (∀ (s : OptimizedPbft) (now : Int) (h r : Nat) (hash : Bytes)
        (val : String) (sig : Bytes) (p : OptPhaseState),
        alistFind (h, r) s.phases = some p →
        p.proposal_hash ≠ some hash →
        process_verified_message s now (.Commit h r hash val sig) = s ∧
        process_verified_message s now (.Prepare h r hash val sig) =
          { s with byzantine_faults := s.byzantine_faults + 1 }) ∧
    (∀ (svc : PbftService) (vote : Vote) (now : Int) (entry : PhaseVotes)
        (stake : Nat),
        alistFind (vote.height, vote.round) svc.phases = some entry →
        entry.prepares.contains vote.node_id = true →
        entry.commits.contains vote.node_id = true →
        alistFind vote.node_id svc.state.stakes = some stake →
        stake ≠ 0 →
        (cast_vote svc vote now).2 = CastVoteResult.byzantine_rejected ∧
        (cast_vote svc vote now).1.state.slashing_records =
          svc.state.slashing_records ++
            [⟨vote.node_id, vote.height, SlashReason.ByzantineBehavior,
              calculate_slash_amount stake SlashReason.ByzantineBehavior
                SlashingConfig.default, now⟩]) := by
  constructor
  · intro s now h r hash val sig p hfind hneq
    have hbeq : (p.proposal_hash == some hash) = false := by
      simp only [beq_eq_false_iff_ne, ne_eq]
      exact hneq
    constructor
    · simp only [process_verified_message, alistGetOrInsert, hfind, hbeq,
        Bool.false_eq_true, if_false]
    · simp only [process_verified_message, alistGetOrInsert, hfind, hbeq,
        Bool.false_eq_true, if_false]
  · intro svc vote now entry stake hfind hprep hcomm hstake hstake0
    have hpair :
        cast_vote svc vote now =
          (service_slash_validator
            { svc with state := { svc.state with
                byzantine_faults_detected :=
                  svc.state.byzantine_faults_detected + 1 } }
            vote.node_id SlashReason.ByzantineBehavior vote.height now,
           CastVoteResult.byzantine_rejected) := by
      simp only [cast_vote, detect_byzantine, hfind, hprep, hcomm,
        Bool.and_self, if_true]
    rw [hpair]
    simp only [service_slash_validator, hstake, Option.getD_some,
      if_neg hstake0]
    exact ⟨trivial, trivial⟩

/-- C2 — witness for `conflicting_vote_handling` on `exampleEngine`
(digest-conflicting Commit and Prepare by `"b"`) and on `exampleService`
(`"node-1"` already in both vote sets, stake 100). -/
theorem conflicting_vote_handling_witness :
    (process_verified_message exampleEngine 0
        (.Commit 1 0 (List.replicate 32 2) "b" (List.replicate 96 3)) =
        exampleEngine ∧
      process_verified_message exampleEngine 0
        (.Prepare 1 0 (List.replicate 32 2) "b" (List.replicate 96 3)) =
        { exampleEngine with
            byzantine_faults := exampleEngine.byzantine_faults + 1 }) ∧
    ((cast_vote exampleService ⟨"p1", "node-1", 1, 0, 1⟩ 0).2 =
        CastVoteResult.byzantine_rejected ∧
      (cast_vote exampleService
          ⟨"p1", "node-1", 1, 0, 1⟩ 0).1.state.slashing_records =
        exampleService.state.slashing_records ++
          [⟨"node-1", 1, SlashReason.ByzantineBehavior,
            calculate_slash_amount 100 SlashReason.ByzantineBehavior
              SlashingConfig.default, 0⟩]) :=
  ⟨conflicting_vote_handling.1 exampleEngine 0 1 0 (List.replicate 32 2) "b"
      (List.replicate 96 3) examplePhase (by decide) (by decide),
   conflicting_vote_handling.2 exampleService ⟨"p1", "node-1", 1, 0, 1⟩ 0
      exampleEntry 100 (by decide) (by decide) (by decide) (by decide)
      (by decide)⟩

/-- C10 (code bug): the service is not idempotent under duplicate votes.
`"node-1"` casts Prepare then Commit at `(1, 0)` (all accepted, no
slashing); redelivering the same Commit makes `detect_byzantine` fire —
its own comment says Byzantine means "trying to commit a *different*
proposal", but `PhaseVotes` carries no digests — so the duplicate is
rejected and `"node-1"` is slashed 50% (100 → 50), jailed, and a slashing
record is appended, contradicting the claimed idempotence (and the spec's
requirement that equivocation needs *distinct* digests). -/
theorem duplicate_commit_triggers_slash :
    let vPrep : Vote := ⟨"p1", "node-1", 1, 0, 0⟩
    let vCom : Vote := ⟨"p1", "node-1", 1, 0, 1⟩
    let s1 := (cast_vote exampleFreshService vPrep 0).1
    let s2 := (cast_vote s1 vCom 0).1
    let res := cast_vote s2 vCom 0
    s2.state.slashing_records = [] ∧
    s2.state.jailed_validators = [] ∧
    alistFind "node-1" s2.state.stakes = some 100 ∧
    res.2 = CastVoteResult.byzantine_rejected ∧
    res.1.state.slashing_records =
      [⟨"node-1", 1, SlashReason.ByzantineBehavior, 50, 0⟩] ∧
    res.1.state.jailed_validators = ["node-1"] ∧
    alistFind "node-1" res.1.state.stakes = some 50 ∧
    res.1.state.byzantine_faults_detected = 1 := by
  decide

/-- C7 (confirmed): `calculate_slash_amount` never exceeds the stake it is
applied to, and `slash_validator` on a registered validator returns the
basis-point penalty of the total effective stake (capped there), subtracts
it from self-stake, appends exactly one slashing record, jails until
`height + jail_duration_blocks`, and halves the reputation. -/
theorem slash_validator_spec :
    (∀ (stake : Nat) (reason : SlashReason) (config : SlashingConfig),
        calculate_slash_amount stake reason config ≤ stake) ∧
    (∀ (m : ValidatorManager) (id : String) (reason : SlashReason)
        (height : Nat) (now : Int) (v : Validator),
        alistFind id m.validators = some v →
        ∃ m' : ValidatorManager,
          slash_validator m id reason height now =
            some (m', calculate_slash_amount v.total_stake reason
              m.slashing_config) ∧
          calculate_slash_amount v.total_stake reason m.slashing_config ≤
            v.total_stake ∧
          alistFind id m'.validators = some { v with
            stake := v.stake -
              calculate_slash_amount v.total_stake reason m.slashing_config,
            jailed := true,
            jail_until_height :=
              height + m.slashing_config.jail_duration_blocks,
            slashing_history := v.slashing_history ++
              [⟨id, height, reason,
                calculate_slash_amount v.total_stake reason
                  m.slashing_config, now⟩],
            updated_at := now,
            reputation_score := v.reputation_score * (1 / 2) }) := by
  constructor
  · intro stake reason config
    exact Nat.min_le_right _ _
  · intro m id reason height now v hfind
    simp only [slash_validator, hfind]
    refine ⟨_, rfl, Nat.min_le_right _ _, ?_⟩
    exact alistFind_alistUpdate id _ m.validators v hfind

/-- C7 — witness for `slash_validator_spec` on `exampleManager` (stake
10000, `DoubleSign`, height 100). -/
theorem slash_validator_spec_witness :
    ∃ m' : ValidatorManager,
      slash_validator exampleManager "node-1" SlashReason.DoubleSign 100 0 =
        some (m', calculate_slash_amount exampleValidator.total_stake
          SlashReason.DoubleSign exampleManager.slashing_config) ∧
      calculate_slash_amount exampleValidator.total_stake
        SlashReason.DoubleSign exampleManager.slashing_config ≤
        exampleValidator.total_stake ∧
      alistFind "node-1" m'.validators = some { exampleValidator with
        stake := exampleValidator.stake -
          calculate_slash_amount exampleValidator.total_stake
            SlashReason.DoubleSign exampleManager.slashing_config,
        jailed := true,
        jail_until_height :=
          100 + exampleManager.slashing_config.jail_duration_blocks,
        slashing_history := exampleValidator.slashing_history ++
          [⟨"node-1", 100, SlashReason.DoubleSign,
            calculate_slash_amount exampleValidator.total_stake
              SlashReason.DoubleSign exampleManager.slashing_config, 0⟩],
        updated_at := 0,
        reputation_score := exampleValidator.reputation_score * (1 / 2) } :=
  slash_validator_spec.2 exampleManager "node-1" SlashReason.DoubleSign 100 0
    exampleValidator rfl

/-- C8 (confirmed): with a non-empty active set of positive total stake,
`select_leader` maps the first 8 bytes of the VRF output over
`α = le_bytes(height) ∥ le_bytes(round)` to a target below the total
stake and returns exactly the candidate whose cumulative-stake interval
(in active-set order) contains the target; with an empty active set it
returns `none`. -/
theorem select_leader_follow_the_satoshi (m : ValidatorManager)
    (height round : Nat) :
    (m.active_set = [] → select_leader m height round = none) ∧
    (m.active_set ≠ [] → 0 < sumStakes (leaderCandidates m) →
      leaderTarget m height round < sumStakes (leaderCandidates m) ∧
      ∃ i, ∃ hlt : i < (leaderCandidates m).length,
        select_leader m height round =
          some ((leaderCandidates m).get ⟨i, hlt⟩).1 ∧
        sumStakes ((leaderCandidates m).take i) ≤
          leaderTarget m height round ∧
        leaderTarget m height round <
          sumStakes ((leaderCandidates m).take (i + 1))) := by
  constructor
  · intro h
    simp [select_leader, h]
  · intro hne hpos
    have hempty : m.active_set.isEmpty = false := by
      cases hs : m.active_set with
      | nil => exact absurd hs hne
      | cons a t => rfl
    have hcne : (leaderCandidates m).isEmpty = false := by
      cases hc : leaderCandidates m with
      | nil => rw [hc] at hpos; simp [sumStakes] at hpos
      | cons a t => rfl
    have htarget : leaderTarget m height round <
        sumStakes (leaderCandidates m) := Nat.mod_lt _ hpos
    refine ⟨htarget, ?_⟩
    obtain ⟨i, hlt, heq, hlo, hhi⟩ :=
      fts_scan_spec (leaderTarget m height round) (leaderCandidates m) 0
        (Nat.zero_le _) (by simpa using htarget)
    refine ⟨i, hlt, ?_, by simpa using hlo, by simpa using hhi⟩
    have hred : select_leader m height round =
        match fts_scan (leaderTarget m height round) 0
            (leaderCandidates m) with
        | some validator_id => some validator_id
        | none => (leaderCandidates m).getLast?.map Prod.fst := by
      simp only [select_leader, select_validator_with_vrf, hempty, hcne,
        Bool.false_eq_true, if_false, leaderTarget,
        if_neg (Nat.pos_iff_ne_zero.mp hpos)]
    rw [hred, heq]

/-- C8 — witness for `select_leader_follow_the_satoshi` on the
two-validator `exampleLeaderManager` at `(height, round) = (1, 0)`. -/
theorem select_leader_follow_the_satoshi_witness :
    leaderTarget exampleLeaderManager 1 0 <
      sumStakes (leaderCandidates exampleLeaderManager) ∧
    ∃ i, ∃ hlt : i < (leaderCandidates exampleLeaderManager).length,
      select_leader exampleLeaderManager 1 0 =
        some ((leaderCandidates exampleLeaderManager).get ⟨i, hlt⟩).1 ∧
      sumStakes ((leaderCandidates exampleLeaderManager).take i) ≤
        leaderTarget exampleLeaderManager 1 0 ∧
      leaderTarget exampleLeaderManager 1 0 <
        sumStakes ((leaderCandidates exampleLeaderManager).take (i + 1)) :=
  (select_leader_follow_the_satoshi exampleLeaderManager 1 0).2
    (by decide) (by decide)

/-- C9 (confirmed): the circuit breaker follows exactly the claimed state
machine.  `allow` admits from `Closed` and `HalfOpen` without transition;
from `Open` it admits and moves to `HalfOpen` (resetting the success
counter) precisely once the open timeout has elapsed.  `record_result`
moves `Closed → Open` precisely when the recorded window holds at least
`min_requests` samples and the failure rate reaches the threshold; in
`HalfOpen`, the `success_threshold`-th consecutive success closes the
breaker and any failure reopens it. -/
theorem circuit_breaker_state_machine (cb : CircuitBreaker) (now t : Nat)
    (success : Bool) :
    (cb.state = CircuitState.Closed → cb.allow now = (true, cb)) ∧
    (cb.state = CircuitState.HalfOpen → cb.allow now = (true, cb)) ∧
    (cb.state = CircuitState.Open → cb.opened_at = some t →
      cb.config.timeout ≤ now - t →
      cb.allow now =
        (true, { cb with
                   state := CircuitState.HalfOpen,
                   half_open_successes := 0 })) ∧
    (cb.state = CircuitState.Open → cb.opened_at = some t →
      now - t < cb.config.timeout → cb.allow now = (false, cb)) ∧
    (cb.state = CircuitState.Closed →
      (cb.record_result now success).state =
        (if cb.config.min_requests ≤
              ((cb.stats.record now success).totals).1 +
                ((cb.stats.record now success).totals).2 ∧
            cb.config.failure_threshold ≤
              (cb.stats.record now success).failure_rate
          then CircuitState.Open else CircuitState.Closed)) ∧
    (cb.state = CircuitState.Open →
      (cb.record_result now success).state = CircuitState.Open) ∧
    (cb.state = CircuitState.HalfOpen →
      (cb.record_result now true).state =
        (if cb.config.success_threshold ≤ cb.half_open_successes + 1
          then CircuitState.Closed else CircuitState.HalfOpen)) ∧
    (cb.state = CircuitState.HalfOpen →
      cb.record_result now false =
        { cb with
            stats := cb.stats.record now false,
            state := CircuitState.Open,
            opened_at := some now,
            half_open_successes := 0 }) := by
  refine ⟨?_, ?_, ?_, ?_, ?_, ?_, ?_, ?_⟩
  · intro h
    simp [CircuitBreaker.allow, h]
  · intro h
    simp [CircuitBreaker.allow, h]
  · intro h hopen helapsed
    simp [CircuitBreaker.allow, h, hopen, helapsed]
  · intro h hopen helapsed
    simp [CircuitBreaker.allow, h, hopen, Nat.not_le.mpr helapsed]
  · intro h
    by_cases h1 : cb.config.min_requests ≤
        ((cb.stats.record now success).totals).1 +
          ((cb.stats.record now success).totals).2
    · by_cases h2 : cb.config.failure_threshold ≤
          (cb.stats.record now success).failure_rate
      · simp [CircuitBreaker.record_result, h, h1, h2]
      · simp [CircuitBreaker.record_result, h, h1, h2]
    · simp [CircuitBreaker.record_result, h, h1]
  · intro h
    simp [CircuitBreaker.record_result, h]
  · intro h
    by_cases h1 : cb.config.success_threshold ≤ cb.half_open_successes + 1
    · simp [CircuitBreaker.record_result, h, h1]
    · simp [CircuitBreaker.record_result, h, h1]
  · intro h
    simp [CircuitBreaker.record_result, h]

/-- C9 — witness for `circuit_breaker_state_machine` on the open
`exampleBreaker` (timeout 5, opened at 0) probed at instant 10. -/
theorem circuit_breaker_state_machine_witness :
    exampleBreaker.allow 10 =
      (true, { exampleBreaker with
                 state := CircuitState.HalfOpen,
                 half_open_successes := 0 }) ∧
    (exampleBreaker.record_result 10 true).state = CircuitState.Open :=
  ⟨(circuit_breaker_state_machine exampleBreaker 10 0 true).2.2.1 rfl rfl
      (by decide),
   (circuit_breaker_state_machine exampleBreaker 10 0
      true).2.2.2.2.2.1 rfl⟩
